import Mathlib

/-!
Verification development for the flow-emulator blockchain coordinator
(package emulator, file embedded from the repository source).

The coordinator code (Blockchain and its operations AddTransaction,
ExecuteBlock, executeNextTransaction, commitBlock/CommitBlock, script
execution and the query API) is translated from the Go source.  The
pending-block state machine, the storage backend and the VM adapter are
consumed by that source through interfaces whose implementations are not
part of the source tree here; those are modelled from the specification
(sections 3, 4.1 and 6) and marked as such in their doc comments.

Machine integers: heights, identifiers, gas and error codes are modelled
as Nat; none of the translated code paths exercise integer overflow.
-/

namespace FlowEmu

/-- A versioned key-value ledger delta: newest writes at the head. -/
def Ledger : Type := List (Nat × Nat)

instance : DecidableEq Ledger := inferInstanceAs (DecidableEq (List (Nat × Nat)))

instance : Append Ledger := inferInstanceAs (Append (List (Nat × Nat)))

instance : Repr Ledger := inferInstanceAs (Repr (List (Nat × Nat)))

/-- An event emitted during execution, typed by a string and associated
with the emitting transaction. -/
structure Event where
  evType : String
  txId : Nat
  eventIndex : Nat
  payload : Nat
deriving DecidableEq, Repr

/-- A transaction body; txId stands for the content-derived identifier
tx.ID(), script for the procedure contents. -/
structure TransactionBody where
  txId : Nat
  script : Nat
deriving DecidableEq, Repr

/-- A collection: a grouping of transaction IDs referenced by a block
payload. -/
structure Collection where
  txIds : List Nat
deriving DecidableEq, Repr

/-- Content-derived collection identifier. -/
def Collection.collId (c : Collection) : Nat :=
  c.txIds.foldl Nat.pair 0

/-- A block: header fields (height, parent ID, timestamp, view) plus the
payload referencing zero or more collections. -/
structure Block where
  height : Nat
  parentID : Nat
  timestamp : Nat
  view : Nat
  collections : List Collection
deriving DecidableEq, Repr

/-- Content-derived block identifier (stands for the header hash ID()). -/
def Block.blkId (bl : Block) : Nat :=
  Nat.pair bl.height (Nat.pair bl.parentID bl.view)

/-- Outcome the VM adapter writes into a transaction procedure: an
optional transaction-level error, events, gas, logs and ledger writes. -/
structure TxOutcome where
  txError : Option Nat
  events : List Event
  gasUsed : Nat
  logs : List String
  writes : Ledger
deriving DecidableEq, Repr

/-- fvm.TransactionProcedure: the body plus its declared index within the
block and the outcome filled in by the VM run. -/
structure TransactionProcedure where
  txBody : TransactionBody
  txIndex : Nat
  outcome : TxOutcome
deriving DecidableEq, Repr

/-- A transaction result paired with its position within the block. -/
structure IndexedTransactionResult where
  transaction : TransactionProcedure
  index : Nat
deriving DecidableEq, Repr

/-- types.TransactionResult as surfaced by the emulator. -/
structure TransactionResult where
  transactionID : Nat
  computationUsed : Nat
  txError : Option Nat
  events : List Event
  logs : List String
deriving DecidableEq, Repr

/-- types.StorableTransactionResult: what is persisted for a sealed
transaction. -/
structure StorableTransactionResult where
  errorCode : Nat
  errorMessage : String
  events : List Event
deriving DecidableEq, Repr

/-- convert.ToStorableResult: a successful procedure stores error code 0,
a reverted one stores its error code and message. -/
def toStorableResult (tp : TransactionProcedure) : StorableTransactionResult :=
  match tp.outcome.txError with
  | none => { errorCode := 0, errorMessage := "", events := tp.outcome.events }
  | some c => { errorCode := c, errorMessage := toString c, events := tp.outcome.events }

/-- convert.VMTransactionResultToEmulator. -/
def vmTransactionResultToEmulator (tp : TransactionProcedure) : TransactionResult :=
  { transactionID := tp.txBody.txId
    computationUsed := tp.outcome.gasUsed
    txError := tp.outcome.txError
    events := tp.outcome.events
    logs := tp.outcome.logs }

/-- storage.ErrNotFound sentinel versus any other storage failure. -/
inductive StoreErr where
  | notFound
  | failure (code : Nat)
deriving DecidableEq, Repr

/-- The error taxonomy surfaced by the Blockchain coordinator, one
constructor per distinct Go error type used in the translated code. -/
inductive EmuError where
  | blockNotFoundByHeight (height : Nat)
  | blockNotFoundByID (blockId : Nat)
  | collectionNotFound (collId : Nat)
  | transactionNotFound (txId : Nat)
  | accountNotFound (address : Nat)
  | storageError (e : StoreErr)
  | storePassthrough (e : StoreErr)
  | duplicateTransaction (txId : Nat)
  | pendingBlockCommitBeforeExecution (blockId : Nat)
  | pendingBlockMidExecution (blockId : Nat)
  | pendingBlockTransactionsExhausted (blockId : Nat)
  | invalidArgument (msg : String)
  | validationError (code : Nat)
  | vmFatal (code : Nat)
  | genericError (msg : String)
deriving DecidableEq, Repr

/-- Modelled from the spec: the Store contract (section 6) keeps committed
blocks, collections, transactions, results, events and per-height ledger
snapshots; its implementation is not part of the translated source. -/
structure Store where
  blocks : List Block
  transactions : List (Nat × TransactionBody)
  results : List (Nat × StorableTransactionResult)
  collections : List (Nat × Collection)
  events : List (Nat × List Event)
  ledgers : List (Nat × Ledger)
deriving DecidableEq

/-- Modelled from the spec: BlockByHeight, with the not-found sentinel. -/
def Store.blockByHeight (s : Store) (height : Nat) : Except StoreErr Block :=
  match s.blocks.find? (fun bl => bl.height == height) with
  | some bl => .ok bl
  | none => .error .notFound

/-- Modelled from the spec: BlockByID, with the not-found sentinel. -/
def Store.blockByID (s : Store) (blockId : Nat) : Except StoreErr Block :=
  match s.blocks.find? (fun bl => bl.blkId == blockId) with
  | some bl => .ok bl
  | none => .error .notFound

/-- Modelled from the spec: LatestBlock returns the committed block of
greatest height. -/
def Store.latestBlock (s : Store) : Except StoreErr Block :=
  match s.blocks.foldl
      (fun acc bl =>
        match acc with
        | none => some bl
        | some m => if m.height < bl.height then some bl else some m)
      none with
  | some bl => .ok bl
  | none => .error .notFound

/-- Modelled from the spec: TransactionByID. -/
def Store.transactionByID (s : Store) (txId : Nat) : Except StoreErr TransactionBody :=
  match s.transactions.lookup txId with
  | some tx => .ok tx
  | none => .error .notFound

/-- Modelled from the spec: TransactionResultByID. -/
def Store.transactionResultByID (s : Store) (txId : Nat) :
    Except StoreErr StorableTransactionResult :=
  match s.results.lookup txId with
  | some r => .ok r
  | none => .error .notFound

/-- Modelled from the spec: CollectionByID. -/
def Store.collectionByID (s : Store) (collId : Nat) : Except StoreErr Collection :=
  match s.collections.lookup collId with
  | some c => .ok c
  | none => .error .notFound

/-- Modelled from the spec: EventsByHeight with an optional type filter;
an empty filter returns all events of the block at that height. -/
def Store.eventsByHeight (s : Store) (height : Nat) (eventType : String) :
    Except StoreErr (List Event) :=
  let evs := (s.events.lookup height).getD []
  .ok (if eventType = "" then evs else evs.filter (fun e => e.evType == eventType))

/-- Modelled from the spec: LedgerViewByHeight returns the ledger snapshot
rooted at the requested committed height. -/
def Store.ledgerViewByHeight (s : Store) (height : Nat) : Ledger :=
  (s.ledgers.lookup height).getD []

/-- Modelled from the spec: CommitBlock persists the block, collections,
transactions, results, ledger delta and events in one call. -/
def Store.commitBlock (s : Store) (block : Block) (cols : List Collection)
    (txs : List TransactionBody) (res : List (Nat × StorableTransactionResult))
    (delta : Ledger) (evs : List Event) : Store :=
  { blocks := s.blocks ++ [block]
    transactions := s.transactions ++ txs.map (fun t => (t.txId, t))
    results := s.results ++ res
    collections := s.collections ++ cols.map (fun c => (c.collId, c))
    events := s.events ++ [(block.height, evs)]
    ledgers := s.ledgers ++ [(block.height, delta ++ s.ledgerViewByHeight (block.height - 1))] }

/-- Modelled from the spec: the pending block (sections 3 and 4.1), an
ordered queue of admitted transactions, an execution cursor, a child
ledger view (base view handed at creation plus an initially empty delta)
and per-transaction results keyed by ID. -/
structure PendingBlock where
  parentID : Nat
  height : Nat
  timestamp : Nat
  view : Nat
  transactionIDs : List Nat
  transactions : List (Nat × TransactionBody)
  transactionResults : List (Nat × IndexedTransactionResult)
  baseView : Ledger
  delta : Ledger
  index : Nat
deriving DecidableEq

/-- Modelled from the spec: a fresh pending block chained off the given
parent block, header fields fixed at creation (height = parent height + 1,
a fresh view bound), empty queue, cursor 0, empty child delta. -/
def newPendingBlock (parent : Block) (ledgerView : Ledger) : PendingBlock :=
  { parentID := parent.blkId
    height := parent.height + 1
    timestamp := parent.timestamp + 1
    view := parent.view + 1
    transactionIDs := []
    transactions := []
    transactionResults := []
    baseView := ledgerView
    delta := []
    index := 0 }

/-- Modelled from the spec: number of admitted transactions. -/
def PendingBlock.size (pb : PendingBlock) : Nat :=
  pb.transactionIDs.length

/-- Modelled from the spec: execution has started once the cursor is
positive. -/
def PendingBlock.executionStarted (pb : PendingBlock) : Bool :=
  pb.index != 0

/-- Modelled from the spec: execution is complete once the cursor has
consumed the whole queue. -/
def PendingBlock.executionComplete (pb : PendingBlock) : Bool :=
  decide (pb.size ≤ pb.index)

/-- Modelled from the spec: a pending block with no admitted
transactions. -/
def PendingBlock.empty (pb : PendingBlock) : Bool :=
  pb.transactionIDs.isEmpty

/-- Modelled from the spec: whether a transaction ID was already admitted
into this pending block. -/
def PendingBlock.containsTransaction (pb : PendingBlock) (txId : Nat) : Bool :=
  (pb.transactions.lookup txId).isSome

/-- Modelled from the spec: lookup of an admitted transaction body. -/
def PendingBlock.getTransaction (pb : PendingBlock) (txId : Nat) : Option TransactionBody :=
  pb.transactions.lookup txId

/-- Modelled from the spec: append a transaction to the queue in arrival
order. -/
def PendingBlock.addTransaction (pb : PendingBlock) (tx : TransactionBody) : PendingBlock :=
  { pb with
    transactionIDs := pb.transactionIDs ++ [tx.txId]
    transactions := pb.transactions ++ [(tx.txId, tx)] }

/-- Modelled from the spec: the single collection grouping the admitted
transaction IDs; an empty pending block yields no collection. -/
def PendingBlock.collections (pb : PendingBlock) : List Collection :=
  if pb.transactionIDs.isEmpty then [] else [{ txIds := pb.transactionIDs }]

/-- Modelled from the spec: the block under construction; header fields
fixed at creation, payload finalized from the current collections. -/
def PendingBlock.block (pb : PendingBlock) : Block :=
  { height := pb.height
    parentID := pb.parentID
    timestamp := pb.timestamp
    view := pb.view
    collections := pb.collections }

/-- Modelled from the spec: the pending block ID is its block's ID. -/
def PendingBlock.pbId (pb : PendingBlock) : Nat :=
  pb.block.blkId

/-- Modelled from the spec: admitted transaction bodies in queue order. -/
def PendingBlock.transactionsList (pb : PendingBlock) : List TransactionBody :=
  pb.transactionIDs.filterMap (fun i => pb.transactions.lookup i)

/-- Modelled from the spec: all events of the executed transactions, in
queue order. -/
def PendingBlock.eventsList (pb : PendingBlock) : List Event :=
  (pb.transactionIDs.filterMap (fun i => pb.transactionResults.lookup i)).flatMap
    (fun r => r.transaction.outcome.events)

/-- Modelled from the spec: the accumulated child-view delta extracted at
commit time. -/
def PendingBlock.ledgerDelta (pb : PendingBlock) : Ledger :=
  pb.delta

/-- The runner handed to the pending block: given the shared child ledger
view, the transaction index and the body, it returns the executed
procedure or a fatal error code. -/
def TxRunner : Type :=
  Ledger → Nat → TransactionBody → Except Nat TransactionProcedure

/-- Modelled from the spec (section 4.1 and design note 9): take the
transaction at the cursor, advance the cursor regardless of the execution
outcome, run the VM against the shared child view with the index as the
declared position; on a non-fatal outcome record the result keyed by
transaction ID and fold the writes into the delta; a fatal error is
propagated with no result recorded. -/
def PendingBlock.executeNextTransaction (pb : PendingBlock) (execute : TxRunner) :
    Except Nat TransactionProcedure × PendingBlock :=
  let txId := pb.transactionIDs.getD pb.index 0
  let tx := (pb.transactions.lookup txId).getD { txId := 0, script := 0 }
  let txIndex := pb.index
  let pb1 := { pb with index := pb.index + 1 }
  match execute (pb.delta ++ pb.baseView) txIndex tx with
  | .error e => (.error e, pb1)
  | .ok tp =>
      (.ok tp,
        { pb1 with
          transactionResults := pb1.transactionResults ++ [(txId, { transaction := tp, index := txIndex })]
          delta := tp.outcome.writes ++ pb1.delta })

/-- Outcome the VM adapter writes into a script procedure. -/
structure ScriptOutcome where
  value : Option Nat
  scriptError : Option Nat
  logs : List String
  events : List Event
  gasUsed : Nat
  writes : Ledger
deriving DecidableEq, Repr

/-- types.ScriptResult as surfaced by the emulator. -/
structure ScriptResult where
  scriptID : Nat
  value : Option Nat
  scriptError : Option Nat
  logs : List String
  events : List Event
  computationUsed : Nat
deriving DecidableEq, Repr

/-- Content-derived script identifier (stands for the SHA3 hash of the
script source). -/
def scriptHash (script : Nat) : Nat :=
  script

/-- The VM adapter's account lookup failure modes: the account-not-found
error versus any other failure. -/
inductive AccErr where
  | accountNotFound
  | other (code : Nat)
deriving DecidableEq, Repr

/-- An account snapshot derived on demand from a ledger view. -/
structure Account where
  address : Nat
  balance : Nat
deriving DecidableEq, Repr

/-- The emulated blockchain: committed state in storage, one pending
block, the VM adapter and the transaction validator as opaque function
fields (external collaborators invoked through their run contracts). -/
structure Blockchain where
  storage : Store
  pendingBlock : PendingBlock
  vmRunTransaction : Block → TransactionBody → Nat → Ledger → Except Nat TxOutcome
  vmRunScript : Block → Nat → List Nat → Ledger → Except Nat ScriptOutcome
  vmGetAccount : Nat → Ledger → Except AccErr Account
  transactionValidator : TransactionBody → Option Nat
  autoMine : Bool

/-- Error mapping of getBlockByHeight: the not-found sentinel becomes
BlockNotFoundByHeightError, any other storage error is returned
unchanged. -/
def getBlockByHeightFrom (res : Except StoreErr Block) (height : Nat) :
    Except EmuError Block :=
  match res with
  | .error .notFound => .error (.blockNotFoundByHeight height)
  | .error e => .error (.storePassthrough e)
  | .ok bl => .ok bl

/-- getBlockByHeight. -/
def Blockchain.getBlockByHeight (b : Blockchain) (height : Nat) : Except EmuError Block :=
  getBlockByHeightFrom (b.storage.blockByHeight height) height

/-- Error mapping of GetBlockByID: the not-found sentinel becomes
BlockNotFoundByIDError, any other storage error is wrapped in
StorageError. -/
def getBlockByIDFrom (res : Except StoreErr Block) (blockId : Nat) :
    Except EmuError Block :=
  match res with
  | .error .notFound => .error (.blockNotFoundByID blockId)
  | .error e => .error (.storageError e)
  | .ok bl => .ok bl

/-- GetBlockByID. -/
def Blockchain.getBlockByID (b : Blockchain) (blockId : Nat) : Except EmuError Block :=
  getBlockByIDFrom (b.storage.blockByID blockId) blockId

/-- Error mapping of GetCollectionByID: the not-found sentinel becomes
CollectionNotFoundError, any other storage error is wrapped in
StorageError. -/
def getCollectionByIDFrom (res : Except StoreErr Collection) (collId : Nat) :
    Except EmuError Collection :=
  match res with
  | .error .notFound => .error (.collectionNotFound collId)
  | .error e => .error (.storageError e)
  | .ok c => .ok c

/-- GetCollectionByID. -/
def Blockchain.getCollectionByID (b : Blockchain) (collId : Nat) : Except EmuError Collection :=
  getCollectionByIDFrom (b.storage.collectionByID collId) collId

/-- Error mapping of GetTransaction: the pending block is consulted first;
then the not-found sentinel becomes TransactionNotFoundError and any other
storage error is wrapped in StorageError. -/
def getTransactionFrom (pendingTx : Option TransactionBody)
    (res : Except StoreErr TransactionBody) (txId : Nat) :
    Except EmuError TransactionBody :=
  match pendingTx with
  | some tx => .ok tx
  | none =>
    match res with
    | .error .notFound => .error (.transactionNotFound txId)
    | .error e => .error (.storageError e)
    | .ok tx => .ok tx

/-- GetTransaction. -/
def Blockchain.getTransaction (b : Blockchain) (txId : Nat) : Except EmuError TransactionBody :=
  getTransactionFrom (b.pendingBlock.getTransaction txId) (b.storage.transactionByID txId) txId

/-- Error mapping of GetAccountAtBlockHeight: the VM's account-not-found
error becomes AccountNotFoundError; on any other failure the source
returns the (nil) account with a nil error. -/
def getAccountAtBlockHeightFrom (res : Except AccErr Account) (address : Nat) :
    Except EmuError (Option Account) :=
  match res with
  | .error .accountNotFound => .error (.accountNotFound address)
  | .error (.other _) => .ok none
  | .ok a => .ok (some a)

/-- GetAccountAtBlockHeight. -/
def Blockchain.getAccountAtBlockHeight (b : Blockchain) (address : Nat) (blockHeight : Nat) :
    Except EmuError (Option Account) :=
  getAccountAtBlockHeightFrom
    (b.vmGetAccount address (b.storage.ledgerViewByHeight blockHeight)) address

/-- GetLatestBlock: any storage error is wrapped in StorageError. -/
def Blockchain.getLatestBlock (b : Blockchain) : Except EmuError Block :=
  match b.storage.latestBlock with
  | .error e => .error (.storageError e)
  | .ok bl => .ok bl

/-- Transaction status of an access.TransactionResult. -/
inductive TxStatus where
  | pending
  | unknown
  | sealed
deriving DecidableEq, Repr

/-- access.TransactionResult as assembled by GetTransactionResult. -/
structure AccessTransactionResult where
  status : TxStatus
  statusCode : Nat
  errorMessage : String
  events : List Event
  transactionID : Nat
  blockHeight : Nat
deriving DecidableEq, Repr

/-- The result returned for a transaction still in the pending block:
only the Pending status is set. -/
def pendingAccessResult : AccessTransactionResult :=
  { status := .pending, statusCode := 0, errorMessage := "", events := []
    transactionID := 0, blockHeight := 0 }

/-- The result returned for a transaction with no stored result: only the
Unknown status is set, with a nil error. -/
def unknownAccessResult : AccessTransactionResult :=
  { status := .unknown, statusCode := 0, errorMessage := "", events := []
    transactionID := 0, blockHeight := 0 }

/-- Error mapping of GetTransactionResult: a pending transaction reports
status Pending; the not-found sentinel on the stored result reports status
Unknown with a nil error; a stored result is reported as Sealed carrying
the stored error and events; only a generic storage failure is an
error. -/
def getTransactionResultFrom (containsPending : Bool)
    (res : Except StoreErr StorableTransactionResult) (txId : Nat) :
    Except EmuError AccessTransactionResult :=
  if containsPending then
    .ok pendingAccessResult
  else
    match res with
    | .error .notFound => .ok unknownAccessResult
    | .error e => .error (.storageError e)
    | .ok sr =>
        .ok { status := .sealed
              statusCode := sr.errorCode
              errorMessage := sr.errorMessage
              events := sr.events
              transactionID := txId
              blockHeight := 0 }

/-- GetTransactionResult. -/
def Blockchain.getTransactionResult (b : Blockchain) (txId : Nat) :
    Except EmuError AccessTransactionResult :=
  getTransactionResultFrom (b.pendingBlock.containsTransaction txId)
    (b.storage.transactionResultByID txId) txId

/-- validateEventType: the event type must not be blank.  The source
tests len(strings.TrimSpace(eventType)) == 0, which holds exactly when
every character of the string is whitespace. -/
def validateEventType (eventType : String) : Except EmuError Unit :=
  if eventType.toList.all (fun c => c.isWhitespace) then
    .error (.genericError "invalid query: eventType must not be empty")
  else
    .ok ()

/-- GetEventsByHeight: the storage error is returned unchanged. -/
def Blockchain.getEventsByHeight (b : Blockchain) (blockHeight : Nat) (eventType : String) :
    Except EmuError (List Event) :=
  match b.storage.eventsByHeight blockHeight eventType with
  | .error e => .error (.storePassthrough e)
  | .ok evs => .ok evs

/-- One entry of an event range query: block ID, height, timestamp and
the filtered events of that block. -/
structure BlockEvents where
  blockID : Nat
  blockHeight : Nat
  blockTimestamp : Nat
  events : List Event
deriving DecidableEq, Repr

/-- The body of the GetEventsForHeightRange loop, walking the requested
heights in ascending order and failing on the first lookup error. -/
def Blockchain.eventsForHeights (b : Blockchain) (eventType : String) (heights : List Nat) :
    Except EmuError (List BlockEvents) :=
  match heights with
  | [] => .ok []
  | h :: rest =>
    match b.getBlockByHeight h with
    | .error e => .error e
    | .ok block =>
      match b.getEventsByHeight h eventType with
      | .error e => .error e
      | .ok events =>
        match b.eventsForHeights eventType rest with
        | .error e => .error e
        | .ok rs =>
            .ok ({ blockID := block.blkId
                   blockHeight := block.height
                   blockTimestamp := block.timestamp
                   events := events } :: rs)

/-- The ascending list of heights startHeight, ..., endHeight. -/
def rangeAsc (startHeight endHeight : Nat) : List Nat :=
  (List.range (endHeight + 1 - startHeight)).map (fun i => startHeight + i)

/-- GetEventsForHeightRange: validates the event type, clamps endHeight
(0 or beyond the latest committed height) to the latest height, rejects
startHeight > endHeight as an invalid argument, and otherwise assembles
one BlockEvents entry per height in ascending order. -/
def Blockchain.getEventsForHeightRange (b : Blockchain) (eventType : String)
    (startHeight endHeight : Nat) : Except EmuError (List BlockEvents) :=
  match validateEventType eventType with
  | .error e => .error e
  | .ok _ =>
    match b.getLatestBlock with
    | .error e => .error e
    | .ok latestBlock =>
      let endH := if endHeight = 0 ∨ latestBlock.height < endHeight
                  then latestBlock.height else endHeight
      if endH < startHeight then
        .error (.invalidArgument "startHeight > endHeight")
      else
        b.eventsForHeights eventType (rangeAsc startHeight endH)

/-- executeScriptAtBlock: runs the VM on a ledger view rooted at the
requested block's height; the view (and any writes the script made to it)
is discarded after the run, and no component of the chain state is
updated. -/
def Blockchain.executeScriptAtBlock (b : Blockchain) (script : Nat) (args : List Nat)
    (requestedBlock : Block) : Except EmuError ScriptResult × Blockchain :=
  let requestedLedgerView := b.storage.ledgerViewByHeight requestedBlock.height
  match b.vmRunScript requestedBlock script args requestedLedgerView with
  | .error e => (.error (.vmFatal e), b)
  | .ok sp =>
      (.ok { scriptID := scriptHash script
             value := match sp.scriptError with
                      | none => sp.value
                      | some _ => none
             scriptError := sp.scriptError
             logs := sp.logs
             events := sp.events
             computationUsed := sp.gasUsed }, b)

/-- ExecuteScript: script execution against the latest committed block. -/
def Blockchain.executeScript (b : Blockchain) (script : Nat) (args : List Nat) :
    Except EmuError ScriptResult × Blockchain :=
  match b.getLatestBlock with
  | .error e => (.error e, b)
  | .ok latestBlock => b.executeScriptAtBlock script args latestBlock

/-- ExecuteScriptAtBlockID. -/
def Blockchain.executeScriptAtBlockID (b : Blockchain) (script : Nat) (args : List Nat)
    (blockId : Nat) : Except EmuError ScriptResult × Blockchain :=
  match b.getBlockByID blockId with
  | .error e => (.error e, b)
  | .ok requestedBlock => b.executeScriptAtBlock script args requestedBlock

/-- ExecuteScriptAtBlockHeight. -/
def Blockchain.executeScriptAtBlockHeight (b : Blockchain) (script : Nat) (args : List Nat)
    (blockHeight : Nat) : Except EmuError ScriptResult × Blockchain :=
  match b.getBlockByHeight blockHeight with
  | .error e => (.error e, b)
  | .ok requestedBlock => b.executeScriptAtBlock script args requestedBlock

/-- AddTransaction: rejected with PendingBlockMidExecutionError once
execution has started; rejected as a duplicate if the ID is already in
the pending block or already stored; otherwise validated and appended to
the pending block's queue. -/
def Blockchain.addTransaction (b : Blockchain) (tx : TransactionBody) :
    Except EmuError Blockchain :=
  if b.pendingBlock.executionStarted then
    .error (.pendingBlockMidExecution b.pendingBlock.pbId)
  else if b.pendingBlock.containsTransaction tx.txId then
    .error (.duplicateTransaction tx.txId)
  else
    match b.storage.transactionByID tx.txId with
    | .ok _ => .error (.duplicateTransaction tx.txId)
    | .error (.failure c) =>
        .error (.genericError ("failed to check storage for transaction " ++ toString c))
    | .error .notFound =>
      match b.transactionValidator tx with
      | some c => .error (.validationError c)
      | none => .ok { b with pendingBlock := b.pendingBlock.addTransaction tx }

/-- executeNextTransaction: fails with PendingBlockTransactionsExhausted
once execution is complete; otherwise runs the next queued transaction
through the VM adapter against the pending block's child view, propagating
a fatal VM error and otherwise converting the procedure into an emulator
result. -/
def Blockchain.executeNextTransaction (b : Blockchain) (header : Block) :
    Except EmuError TransactionResult × Blockchain :=
  if b.pendingBlock.executionComplete then
    (.error (.pendingBlockTransactionsExhausted b.pendingBlock.pbId), b)
  else
    let step := b.pendingBlock.executeNextTransaction
      (fun view txIndex txBody =>
        match b.vmRunTransaction header txBody txIndex view with
        | .error e => .error e
        | .ok outcome => .ok { txBody := txBody, txIndex := txIndex, outcome := outcome })
    let b1 : Blockchain := { b with pendingBlock := step.2 }
    match step.1 with
    | .error e => (.error (.vmFatal e), b1)
    | .ok tp => (.ok (vmTransactionResultToEmulator tp), b1)

/-- The ExecuteBlock drain loop: keep executing the next transaction until
execution is complete, aborting with the collected results on the first
fatal error.  Each iteration advances the execution cursor by one while
the queue is unchanged, so the loop terminates. -/
def Blockchain.executeBlockLoop (b : Blockchain) (header : Block) :
    (List TransactionResult × Option EmuError) × Blockchain :=
  if h : b.pendingBlock.executionComplete = true then
    (([], none), b)
  else
    match hs : b.executeNextTransaction header with
    | (.error e, b1) => (([], some e), b1)
    | (.ok tr, b1) =>
        let r := Blockchain.executeBlockLoop b1 header
        ((tr :: r.1.1, r.1.2), r.2)
termination_by b.pendingBlock.size - b.pendingBlock.index
decreasing_by
  have h' : b.pendingBlock.executionComplete = false := by
    simpa using h
  have hlt : b.pendingBlock.index < b.pendingBlock.transactionIDs.length := by
    have h2 := of_decide_eq_false
      (show decide (b.pendingBlock.size ≤ b.pendingBlock.index) = false from h')
    simp only [PendingBlock.size] at h2
    omega
  simp only [Blockchain.executeNextTransaction, h', Bool.false_eq_true, if_false,
    PendingBlock.executeNextTransaction] at hs
  split at hs
  · simp at hs
  · rw [Prod.mk.injEq] at hs
    rw [← hs.2]
    simp only [PendingBlock.size]
    split <;> simp <;> omega

/-- ExecuteBlock: a no-op with empty results on an empty pending block;
fails with PendingBlockTransactionsExhausted if execution already
completed; otherwise drains the queue via the loop. -/
def Blockchain.executeBlock (b : Blockchain) :
    (List TransactionResult × Option EmuError) × Blockchain :=
  if b.pendingBlock.empty then
    (([], none), b)
  else
    let header := b.pendingBlock.block
    if b.pendingBlock.executionComplete then
      (([], some (.pendingBlockTransactionsExhausted b.pendingBlock.pbId)), b)
    else
      b.executeBlockLoop header

/-- convertToSealedResults. -/
def convertToSealedResults (rs : List (Nat × IndexedTransactionResult)) :
    List (Nat × StorableTransactionResult) :=
  rs.map (fun p => (p.1, toStorableResult p.2.transaction))

/-- commitBlock: fails with PendingBlockCommitBeforeExecutionError if the
block has transactions but none executed, with PendingBlockMidExecutionError
if execution started but is incomplete; otherwise persists the block,
collections, transactions, sealed results, ledger delta and events to
storage and replaces the pending block with a fresh one chained off the
just-committed block. -/
def Blockchain.commitBlock (b : Blockchain) : Except EmuError (Block × Blockchain) :=
  if !b.pendingBlock.executionStarted && !b.pendingBlock.empty then
    .error (.pendingBlockCommitBeforeExecution b.pendingBlock.pbId)
  else if b.pendingBlock.executionStarted && !b.pendingBlock.executionComplete then
    .error (.pendingBlockMidExecution b.pendingBlock.pbId)
  else
    let block := b.pendingBlock.block
    let collections := b.pendingBlock.collections
    let transactions := b.pendingBlock.transactionsList
    let transactionResults := convertToSealedResults b.pendingBlock.transactionResults
    let ledgerDelta := b.pendingBlock.ledgerDelta
    let events := b.pendingBlock.eventsList
    let storage1 := b.storage.commitBlock block collections transactions
      transactionResults ledgerDelta events
    let ledgerView := storage1.ledgerViewByHeight block.height
    .ok (block, { b with storage := storage1, pendingBlock := newPendingBlock block ledgerView })

/-- CommitBlock: the public wrapper around commitBlock; in the source it
additionally takes the coordination lock and logs the committed height. -/
def Blockchain.CommitBlock (b : Blockchain) : Except EmuError (Block × Blockchain) :=
  b.commitBlock

/-- The public ExecuteNextTransaction: builds the block context from the
pending block's header and runs the next transaction. -/
def Blockchain.ExecuteNextTransaction (b : Blockchain) :
    Except EmuError TransactionResult × Blockchain :=
  b.executeNextTransaction b.pendingBlock.block

/-- Follows the spec's words for ExecuteBlock's drain semantics: the
queued transactions are executed one at a time in order until execution is
complete, and a fatal error stops the run immediately, yielding exactly
the results collected before the failure together with that error. -/
inductive ExecTrace : Blockchain → Block → List TransactionResult → Option EmuError →
    Blockchain → Prop where
  | done (b : Blockchain) (header : Block) :
      b.pendingBlock.executionComplete = true → ExecTrace b header [] none b
  | fatal (b : Blockchain) (header : Block) (e : EmuError) (b1 : Blockchain) :
      b.pendingBlock.executionComplete = false →
      b.executeNextTransaction header = (.error e, b1) →
      ExecTrace b header [] (some e) b1
  | step (b : Blockchain) (header : Block) (tr : TransactionResult) (b1 : Blockchain)
      (rs : List TransactionResult) (e? : Option EmuError) (b2 : Blockchain) :
      b.pendingBlock.executionComplete = false →
      b.executeNextTransaction header = (.ok tr, b1) →
      ExecTrace b1 header rs e? b2 →
      ExecTrace b header (tr :: rs) e? b2

/-- Concrete genesis block used by the test fixtures below. -/
def genesisBlock : Block :=
  { height := 0, parentID := 0, timestamp := 0, view := 0, collections := [] }

/-- Concrete store holding only the genesis block. -/
def baseStore : Store :=
  { blocks := [genesisBlock], transactions := [], results := [], collections := []
    events := [], ledgers := [(0, [])] }

/-- Concrete test transaction. -/
def tx1 : TransactionBody :=
  { txId := 1, script := 10 }

/-- A successful empty VM outcome. -/
def okOutcome : TxOutcome :=
  { txError := none, events := [], gasUsed := 0, logs := [], writes := [] }

/-- A reverted VM outcome with transaction-level error code 5. -/
def revertOutcome : TxOutcome :=
  { txError := some 5, events := [], gasUsed := 0, logs := [], writes := [] }

/-- A VM adapter fixture that succeeds on every transaction. -/
def vmAlwaysOk : Block → TransactionBody → Nat → Ledger → Except Nat TxOutcome :=
  fun _ _ _ _ => .ok okOutcome

/-- A VM adapter fixture on which every transaction reverts. -/
def vmAlwaysRevert : Block → TransactionBody → Nat → Ledger → Except Nat TxOutcome :=
  fun _ _ _ _ => .ok revertOutcome

/-- A script VM fixture that always succeeds. -/
def vmScriptOk : Block → Nat → List Nat → Ledger → Except Nat ScriptOutcome :=
  fun _ _ _ _ =>
    .ok { value := some 0, scriptError := none, logs := [], events := [], gasUsed := 0
          writes := [] }

/-- An account VM fixture that always finds the account. -/
def vmAccountOk : Nat → Ledger → Except AccErr Account :=
  fun a _ => .ok { address := a, balance := 0 }

/-- A validator fixture that accepts every transaction. -/
def validatorOk : TransactionBody → Option Nat :=
  fun _ => none

/-- Concrete freshly bootstrapped blockchain fixture: genesis committed,
empty open pending block at height 1. -/
def baseBlockchain : Blockchain :=
  { storage := baseStore
    pendingBlock := newPendingBlock genesisBlock []
    vmRunTransaction := vmAlwaysOk
    vmRunScript := vmScriptOk
    vmGetAccount := vmAccountOk
    transactionValidator := validatorOk
    autoMine := false }

/-- Fixture: one admitted, unexecuted transaction in the pending block. -/
def bcOneTx : Blockchain :=
  { baseBlockchain with pendingBlock := (newPendingBlock genesisBlock []).addTransaction tx1 }

/-- Fixture: one admitted transaction, execution complete (cursor 1). -/
def bcOneTxDone : Blockchain :=
  { bcOneTx with pendingBlock := { bcOneTx.pendingBlock with index := 1 } }

/-- Fixture: one admitted, unexecuted transaction and a VM on which it
reverts. -/
def bcOneTxRevert : Blockchain :=
  { bcOneTx with vmRunTransaction := vmAlwaysRevert }

theorem lookup_append_left_none {β : Type} (l1 l2 : List (Nat × β)) (k : Nat)
    (h : l1.lookup k = none) : (l1 ++ l2).lookup k = l2.lookup k := by
  induction l1 with
  | nil => simp
  | cons hd tl ih =>
    rcases hd with ⟨k1, v1⟩
    cases hb : k == k1 with
    | true =>
      simp [List.lookup, hb] at h
    | false =>
      simp only [List.cons_append, List.lookup, hb] at h ⊢
      exact ih h

theorem lookup_map_value {β γ : Type} (f : β → γ) (l : List (Nat × β)) (k : Nat) :
    (l.map (fun p => (p.1, f p.2))).lookup k = (l.lookup k).map f := by
  induction l with
  | nil => simp
  | cons hd tl ih =>
    rcases hd with ⟨k1, v1⟩
    cases hb : k == k1 with
    | true =>
      simp [List.lookup, hb]
    | false =>
      simp only [List.map, List.lookup, hb]
      exact ih

/-- C6: every mapped lookup turns the storage not-found sentinel into its
own distinct not-found error kind (BlockNotFoundByHeight, BlockNotFoundByID,
CollectionNotFound, TransactionNotFound, AccountNotFound), the blockchain
operations are exactly these mappings of their store calls, and a generic
storage failure never produces any of these not-found kinds. -/
theorem claim_C6 :
    (∀ h, getBlockByHeightFrom (.error .notFound) h = .error (.blockNotFoundByHeight h))
    ∧ (∀ b h, Blockchain.getBlockByHeight b h
        = getBlockByHeightFrom (b.storage.blockByHeight h) h)
    ∧ (∀ h c h2, getBlockByHeightFrom (.error (.failure c)) h
        ≠ .error (.blockNotFoundByHeight h2))
    ∧ (∀ i, getBlockByIDFrom (.error .notFound) i = .error (.blockNotFoundByID i))
    ∧ (∀ b i, Blockchain.getBlockByID b i = getBlockByIDFrom (b.storage.blockByID i) i)
    ∧ (∀ i c i2, getBlockByIDFrom (.error (.failure c)) i ≠ .error (.blockNotFoundByID i2))
    ∧ (∀ i, getCollectionByIDFrom (.error .notFound) i = .error (.collectionNotFound i))
    ∧ (∀ b i, Blockchain.getCollectionByID b i
        = getCollectionByIDFrom (b.storage.collectionByID i) i)
    ∧ (∀ i c i2, getCollectionByIDFrom (.error (.failure c)) i
        ≠ .error (.collectionNotFound i2))
    ∧ (∀ i, getTransactionFrom none (.error .notFound) i = .error (.transactionNotFound i))
    ∧ (∀ b i, Blockchain.getTransaction b i
        = getTransactionFrom (b.pendingBlock.getTransaction i) (b.storage.transactionByID i) i)
    ∧ (∀ i c i2, getTransactionFrom none (.error (.failure c)) i
        ≠ .error (.transactionNotFound i2))
    ∧ (∀ a, getAccountAtBlockHeightFrom (.error .accountNotFound) a
        = .error (.accountNotFound a))
    ∧ (∀ b a hh, Blockchain.getAccountAtBlockHeight b a hh
        = getAccountAtBlockHeightFrom (b.vmGetAccount a (b.storage.ledgerViewByHeight hh)) a)
    ∧ (∀ a c a2, getAccountAtBlockHeightFrom (.error (.other c)) a
        ≠ .error (.accountNotFound a2)) := by
  refine ⟨fun h => rfl, fun b h => rfl, fun h c h2 => by simp [getBlockByHeightFrom],
    fun i => rfl, fun b i => rfl, fun i c i2 => by simp [getBlockByIDFrom],
    fun i => rfl, fun b i => rfl, fun i c i2 => by simp [getCollectionByIDFrom],
    fun i => rfl, fun b i => rfl, fun i c i2 => by simp [getTransactionFrom],
    fun a => rfl, fun b a hh => rfl, fun a c a2 => by simp [getAccountAtBlockHeightFrom]⟩

/-- C7: script execution at a committed block (ExecuteScript,
ExecuteScriptAtBlockHeight, ExecuteScriptAtBlockID) leaves the chain state
(storage and pending block alike) unchanged: the ledger view built at the
requested height is discarded after the VM run and nothing is persisted. -/
theorem claim_C7 (b : Blockchain) (script : Nat) (args : List Nat)
    (blockHeight blockId : Nat) :
    (b.executeScript script args).2 = b
    ∧ (b.executeScriptAtBlockHeight script args blockHeight).2 = b
    ∧ (b.executeScriptAtBlockID script args blockId).2 = b := by
  refine ⟨?_, ?_, ?_⟩
  · unfold Blockchain.executeScript
    split
    · rfl
    · unfold Blockchain.executeScriptAtBlock
      dsimp only
      split <;> rfl
  · unfold Blockchain.executeScriptAtBlockHeight
    split
    · rfl
    · unfold Blockchain.executeScriptAtBlock
      dsimp only
      split <;> rfl
  · unfold Blockchain.executeScriptAtBlockID
    split
    · rfl
    · unfold Blockchain.executeScriptAtBlock
      dsimp only
      split <;> rfl

/-- C10: GetTransactionResult never reports a not-found error: a pending
transaction yields status Pending, a missing stored result yields status
Unknown with no error, and a stored result yields status Sealed carrying
the stored error message and events; only a generic storage failure is an
error, and it is not a not-found kind. -/
theorem claim_C10 :
    (∀ b txId i, Blockchain.getTransactionResult b txId ≠ .error (.transactionNotFound i))
    ∧ (∀ res txId, getTransactionResultFrom true res txId = .ok pendingAccessResult)
    ∧ pendingAccessResult.status = .pending
    ∧ (∀ txId, getTransactionResultFrom false (.error .notFound) txId = .ok unknownAccessResult)
    ∧ unknownAccessResult.status = .unknown
    ∧ (∀ sr txId, getTransactionResultFrom false (.ok sr) txId =
        .ok { status := .sealed, statusCode := sr.errorCode, errorMessage := sr.errorMessage
              events := sr.events, transactionID := txId, blockHeight := 0 })
    ∧ (∀ b txId, Blockchain.getTransactionResult b txId =
        getTransactionResultFrom (b.pendingBlock.containsTransaction txId)
          (b.storage.transactionResultByID txId) txId) := by
  refine ⟨?_, fun res txId => rfl, rfl, fun txId => rfl, rfl, fun sr txId => rfl,
    fun b txId => rfl⟩
  intro b txId i h
  unfold Blockchain.getTransactionResult getTransactionResultFrom at h
  split at h
  · simp at h
  · split at h <;> simp_all

/-- C2: AddTransaction fails with the mid-execution state-machine error
once execution of the pending block has started; otherwise it fails with
the duplicate error when the ID is already in the pending block or already
stored as a committed transaction; otherwise, when validation passes, the
transaction is appended to the pending block's queue. -/
theorem claim_C2 (b : Blockchain) (tx : TransactionBody) :
    (b.pendingBlock.executionStarted = true →
      b.addTransaction tx = .error (.pendingBlockMidExecution b.pendingBlock.pbId))
    ∧ (b.pendingBlock.executionStarted = false →
        b.pendingBlock.containsTransaction tx.txId = true →
        b.addTransaction tx = .error (.duplicateTransaction tx.txId))
    ∧ (b.pendingBlock.executionStarted = false →
        b.pendingBlock.containsTransaction tx.txId = false →
        (∃ stored, b.storage.transactionByID tx.txId = .ok stored) →
        b.addTransaction tx = .error (.duplicateTransaction tx.txId))
    ∧ (b.pendingBlock.executionStarted = false →
        b.pendingBlock.containsTransaction tx.txId = false →
        b.storage.transactionByID tx.txId = .error .notFound →
        b.transactionValidator tx = none →
        b.addTransaction tx = .ok { b with pendingBlock := b.pendingBlock.addTransaction tx }
        ∧ (b.pendingBlock.addTransaction tx).transactionIDs
            = b.pendingBlock.transactionIDs ++ [tx.txId]) := by
  refine ⟨?_, ?_, ?_, ?_⟩
  · intro h1
    simp [Blockchain.addTransaction, h1]
  · intro h1 h2
    simp [Blockchain.addTransaction, h1, h2]
  · rintro h1 h2 ⟨stored, hst⟩
    simp [Blockchain.addTransaction, h1, h2, hst]
  · intro h1 h2 h3 h4
    refine ⟨?_, rfl⟩
    simp [Blockchain.addTransaction, h1, h2, h3, h4]

/-- C2 witness: on the fresh fixture, adding tx1 succeeds and appends it
to the queue. -/
theorem claim_C2_witness :
    baseBlockchain.addTransaction tx1
      = .ok { baseBlockchain with
              pendingBlock := baseBlockchain.pendingBlock.addTransaction tx1 }
    ∧ (baseBlockchain.pendingBlock.addTransaction tx1).transactionIDs
        = baseBlockchain.pendingBlock.transactionIDs ++ [tx1.txId] :=
  (claim_C2 baseBlockchain tx1).2.2.2 (by decide) (by decide) rfl rfl

/-- C1: on a pending block with admitted transactions, CommitBlock fails
with CommitBeforeExecution when none have been executed, fails with
MidExecution when execution is incomplete, and succeeds once all have been
executed, returning a block at the previous committed height plus one and
replacing the pending block with a fresh open one. -/
theorem claim_C1 (b : Blockchain) (hne : b.pendingBlock.transactionIDs ≠ []) :
    (b.pendingBlock.index = 0 →
      b.CommitBlock = .error (.pendingBlockCommitBeforeExecution b.pendingBlock.pbId))
    ∧ (0 < b.pendingBlock.index → b.pendingBlock.index < b.pendingBlock.size →
      b.CommitBlock = .error (.pendingBlockMidExecution b.pendingBlock.pbId))
    ∧ (∀ lb, b.storage.latestBlock = .ok lb → b.pendingBlock.height = lb.height + 1 →
        b.pendingBlock.index = b.pendingBlock.size →
        ∃ blk b1, b.CommitBlock = .ok (blk, b1)
          ∧ blk.height = lb.height + 1
          ∧ b1.pendingBlock.index = 0
          ∧ b1.pendingBlock.transactionIDs = []
          ∧ b1.pendingBlock.height = blk.height + 1) := by
  have hemp : b.pendingBlock.empty = false := by
    unfold PendingBlock.empty
    cases hids : b.pendingBlock.transactionIDs with
    | nil => exact absurd hids hne
    | cons a l => rfl
  have hpos : 0 < b.pendingBlock.size := by
    unfold PendingBlock.size
    exact List.length_pos.mpr hne
  refine ⟨?_, ?_, ?_⟩
  · intro h0
    have hstart : b.pendingBlock.executionStarted = false := by
      simp [PendingBlock.executionStarted, h0]
    simp [Blockchain.CommitBlock, Blockchain.commitBlock, hstart, hemp]
  · intro h0 hlt
    have hstart : b.pendingBlock.executionStarted = true := by
      simp [PendingBlock.executionStarted]
      omega
    have hcomp : b.pendingBlock.executionComplete = false := by
      simp [PendingBlock.executionComplete]
      omega
    simp [Blockchain.CommitBlock, Blockchain.commitBlock, hstart, hcomp]
  · intro lb hlatest hh hidx
    have hstart : b.pendingBlock.executionStarted = true := by
      simp [PendingBlock.executionStarted]
      omega
    have hcomp : b.pendingBlock.executionComplete = true := by
      simp [PendingBlock.executionComplete]
      omega
    cases hC : b.CommitBlock with
    | error e =>
      unfold Blockchain.CommitBlock Blockchain.commitBlock at hC
      simp [hstart, hcomp] at hC
    | ok p =>
      rcases p with ⟨blk, b1⟩
      have hC2 := hC
      unfold Blockchain.CommitBlock Blockchain.commitBlock at hC2
      simp only [hstart, hcomp, Bool.not_true, Bool.and_false, Bool.false_and,
        Bool.false_eq_true, if_false, Except.ok.injEq, Prod.mk.injEq] at hC2
      obtain ⟨hblk, hb1⟩ := hC2
      refine ⟨blk, b1, rfl, ?_, ?_, ?_, ?_⟩
      · rw [← hblk]
        simpa [PendingBlock.block] using hh
      · rw [← hb1]
        simp [newPendingBlock]
      · rw [← hb1]
        simp [newPendingBlock]
      · rw [← hb1, ← hblk]
        simp [newPendingBlock]

/-- C1 witness: on the one-transaction fixture with cursor 0, CommitBlock
fails with CommitBeforeExecution. -/
theorem claim_C1_witness :
    bcOneTx.CommitBlock
      = .error (.pendingBlockCommitBeforeExecution bcOneTx.pendingBlock.pbId) :=
  (claim_C1 bcOneTx (by decide)).1 rfl

theorem blockByHeight_commit (s : Store) (block : Block) (cols : List Collection)
    (txs : List TransactionBody) (res : List (Nat × StorableTransactionResult))
    (delta : Ledger) (evs : List Event)
    (h : s.blocks.find? (fun bl => bl.height == block.height) = none) :
    (s.commitBlock block cols txs res delta evs).blockByHeight block.height = .ok block := by
  unfold Store.commitBlock Store.blockByHeight
  simp only [List.find?_append, h]
  simp

/-- C8: CommitBlock on a pending block with zero admitted transactions
succeeds without any execution phase, producing and persisting a block
with zero collections at the next height. -/
theorem claim_C8 (b : Blockchain) (lb : Block)
    (hempty : b.pendingBlock.transactionIDs = [])
    (hinv : b.pendingBlock.height = lb.height + 1)
    (hfresh : b.storage.blockByHeight b.pendingBlock.height = .error .notFound) :
    ∃ blk b1, b.CommitBlock = .ok (blk, b1)
      ∧ blk.collections = []
      ∧ blk.height = lb.height + 1
      ∧ b1.storage.blockByHeight blk.height = .ok blk := by
  have hemp : b.pendingBlock.empty = true := by
    simp [PendingBlock.empty, hempty]
  have hcomp : b.pendingBlock.executionComplete = true := by
    simp [PendingBlock.executionComplete, PendingBlock.size, hempty]
  have hfind : b.storage.blocks.find?
      (fun bl => bl.height == b.pendingBlock.height) = none := by
    unfold Store.blockByHeight at hfresh
    split at hfresh
    · simp at hfresh
    · assumption
  cases hC : b.CommitBlock with
  | error e =>
    unfold Blockchain.CommitBlock Blockchain.commitBlock at hC
    simp [hemp, hcomp] at hC
  | ok p =>
    rcases p with ⟨blk, b1⟩
    have hC2 := hC
    unfold Blockchain.CommitBlock Blockchain.commitBlock at hC2
    simp only [hemp, hcomp, Bool.not_true, Bool.and_false, Bool.false_and,
      Bool.false_eq_true, if_false, Except.ok.injEq, Prod.mk.injEq] at hC2
    obtain ⟨hblk, hb1⟩ := hC2
    refine ⟨blk, b1, rfl, ?_, ?_, ?_⟩
    · rw [← hblk]
      simp [PendingBlock.block, PendingBlock.collections, hempty]
    · rw [← hblk]
      simpa [PendingBlock.block] using hinv
    · rw [← hb1, ← hblk]
      exact blockByHeight_commit b.storage b.pendingBlock.block _ _ _ _ _ hfind

/-- C8 witness: committing the empty pending block of the fresh fixture
yields a collection-free block at height 1, found in storage afterwards. -/
theorem claim_C8_witness :
    ∃ blk b1, baseBlockchain.CommitBlock = .ok (blk, b1)
      ∧ blk.collections = []
      ∧ blk.height = genesisBlock.height + 1
      ∧ b1.storage.blockByHeight blk.height = .ok blk :=
  claim_C8 baseBlockchain genesisBlock rfl rfl rfl

theorem pb_executeNext_snd (pb : PendingBlock) (execute : TxRunner) :
    (pb.executeNextTransaction execute).2.index = pb.index + 1
    ∧ (pb.executeNextTransaction execute).2.transactionIDs = pb.transactionIDs := by
  unfold PendingBlock.executeNextTransaction
  dsimp only
  split <;> exact ⟨rfl, rfl⟩

theorem executeNext_pending (b : Blockchain) (header : Block)
    (h : b.pendingBlock.executionComplete = false) :
    (b.executeNextTransaction header).2.pendingBlock.index = b.pendingBlock.index + 1
    ∧ (b.executeNextTransaction header).2.pendingBlock.transactionIDs
        = b.pendingBlock.transactionIDs := by
  unfold Blockchain.executeNextTransaction
  simp only [h, Bool.false_eq_true, if_false]
  constructor
  · split <;> exact (pb_executeNext_snd _ _).1
  · split <;> exact (pb_executeNext_snd _ _).2

theorem executeBlockLoop_trace (n : Nat) :
    ∀ (b : Blockchain) (header : Block),
      b.pendingBlock.size - b.pendingBlock.index ≤ n →
      ExecTrace b header (b.executeBlockLoop header).1.1 (b.executeBlockLoop header).1.2
        (b.executeBlockLoop header).2 := by
  induction n with
  | zero =>
    intro b header hb
    have hc : b.pendingBlock.executionComplete = true := by
      simp only [PendingBlock.executionComplete, decide_eq_true_eq]
      omega
    unfold Blockchain.executeBlockLoop
    simp only [hc, dite_true]
    exact ExecTrace.done b header hc
  | succ n ih =>
    intro b header hb
    by_cases hc : b.pendingBlock.executionComplete = true
    · unfold Blockchain.executeBlockLoop
      simp only [hc, dite_true]
      exact ExecTrace.done b header hc
    · have hc' : b.pendingBlock.executionComplete = false := by
        simpa using hc
      unfold Blockchain.executeBlockLoop
      rw [dif_neg hc]
      split
      next e b1 hstep =>
        exact ExecTrace.fatal b header e b1 hc' hstep
      next tr b1 hstep =>
        have hnext := executeNext_pending b header hc'
        rw [hstep] at hnext
        simp only at hnext
        have hlt : b.pendingBlock.index < b.pendingBlock.size := by
          have h2 := hc'
          simp only [PendingBlock.executionComplete, decide_eq_false_iff_not] at h2
          omega
        have hb1 : b1.pendingBlock.size - b1.pendingBlock.index ≤ n := by
          have hsz : b1.pendingBlock.size = b.pendingBlock.size := by
            simp [PendingBlock.size, hnext.2]
          rw [hsz, hnext.1]
          omega
        exact ExecTrace.step b header tr b1 _ _ _ hc' hstep (ih b1 header hb1)

/-- C3: ExecuteBlock on an empty pending block is a no-op with empty
results and no error; on an already fully executed nonempty block it
returns the transactions-exhausted error; otherwise its output is an
execution trace: transactions run in order until complete, and a fatal
error stops the run immediately, returning exactly the results collected
before the failure together with that error. -/
theorem claim_C3 (b : Blockchain) :
    (b.pendingBlock.empty = true → b.executeBlock = (([], none), b))
    ∧ (b.pendingBlock.empty = false → b.pendingBlock.executionComplete = true →
        b.executeBlock
          = (([], some (.pendingBlockTransactionsExhausted b.pendingBlock.pbId)), b))
    ∧ (b.pendingBlock.empty = false → b.pendingBlock.executionComplete = false →
        ∀ rs e? b1, b.executeBlock = ((rs, e?), b1) →
          ExecTrace b b.pendingBlock.block rs e? b1) := by
  refine ⟨?_, ?_, ?_⟩
  · intro h
    simp [Blockchain.executeBlock, h]
  · intro h1 h2
    simp [Blockchain.executeBlock, h1, h2]
  · intro h1 h2 rs e? b1 heq
    have hloop : b.executeBlockLoop b.pendingBlock.block = ((rs, e?), b1) := by
      rw [← heq]
      simp [Blockchain.executeBlock, h1, h2]
    have htr := executeBlockLoop_trace (b.pendingBlock.size - b.pendingBlock.index)
      b b.pendingBlock.block le_rfl
    rw [hloop] at htr
    simpa using htr

/-- C3 witness: on the fixture whose single transaction has already been
executed but not committed, ExecuteBlock fails with the exhausted error. -/
theorem claim_C3_witness :
    bcOneTxDone.executeBlock
      = (([], some (.pendingBlockTransactionsExhausted bcOneTxDone.pendingBlock.pbId)),
         bcOneTxDone) :=
  (claim_C3 bcOneTxDone).2.1 (by decide) (by decide)

theorem lookup_convertToSealed (rs : List (Nat × IndexedTransactionResult)) (k : Nat) :
    (convertToSealedResults rs).lookup k
      = (rs.lookup k).map (fun itr => toStorableResult itr.transaction) := by
  unfold convertToSealedResults
  exact lookup_map_value (fun itr : IndexedTransactionResult => toStorableResult itr.transaction)
    rs k

/-- C4: with at least one unexecuted transaction, executeNextTransaction
advances the execution cursor by one and records a result for the
transaction at the cursor, regardless of whether the outcome succeeded or
reverted; a reverted transaction's stored result carries the error, is
sealed into storage on commit rather than dropped, and the block still
commits. -/
theorem claim_C4 (b : Blockchain) (header : Block) (txId : Nat) (txc : TransactionBody)
    (outcome : TxOutcome) (pb2 : PendingBlock)
    (hnc : b.pendingBlock.executionComplete = false)
    (htx : b.pendingBlock.transactionIDs.getD b.pendingBlock.index 0 = txId)
    (hbody : (b.pendingBlock.transactions.lookup txId).getD { txId := 0, script := 0 } = txc)
    (hfresh : b.pendingBlock.transactionResults.lookup txId = none)
    (hvm : b.vmRunTransaction header txc b.pendingBlock.index
        (b.pendingBlock.delta ++ b.pendingBlock.baseView) = .ok outcome)
    (hpb2 : pb2 = { b.pendingBlock with
        index := b.pendingBlock.index + 1
        transactionResults := b.pendingBlock.transactionResults
          ++ [(txId, { transaction := { txBody := txc, txIndex := b.pendingBlock.index
                                        outcome := outcome }
                       index := b.pendingBlock.index })]
        delta := outcome.writes ++ b.pendingBlock.delta }) :
    b.executeNextTransaction header
        = (.ok (vmTransactionResultToEmulator
            { txBody := txc, txIndex := b.pendingBlock.index, outcome := outcome }),
           { b with pendingBlock := pb2 })
      ∧ pb2.index = b.pendingBlock.index + 1
      ∧ (vmTransactionResultToEmulator
            { txBody := txc, txIndex := b.pendingBlock.index, outcome := outcome }).txError
          = outcome.txError
      ∧ pb2.transactionResults.lookup txId
          = some { transaction := { txBody := txc, txIndex := b.pendingBlock.index
                                    outcome := outcome }
                   index := b.pendingBlock.index }
      ∧ (pb2.executionComplete = true →
          b.storage.results.lookup txId = none →
          ∃ blk b2, Blockchain.commitBlock { b with pendingBlock := pb2 } = .ok (blk, b2)
            ∧ b2.storage.results.lookup txId
                = some (toStorableResult { txBody := txc, txIndex := b.pendingBlock.index
                                           outcome := outcome })) := by
  subst hpb2
  have hpb : b.pendingBlock.executeNextTransaction
      (fun view txIndex txBody =>
        match b.vmRunTransaction header txBody txIndex view with
        | .error e => .error e
        | .ok outcome => .ok { txBody := txBody, txIndex := txIndex, outcome := outcome })
      = (.ok { txBody := txc, txIndex := b.pendingBlock.index, outcome := outcome },
         { b.pendingBlock with
           index := b.pendingBlock.index + 1
           transactionResults := b.pendingBlock.transactionResults
             ++ [(txId, { transaction := { txBody := txc, txIndex := b.pendingBlock.index
                                           outcome := outcome }
                          index := b.pendingBlock.index })]
           delta := outcome.writes ++ b.pendingBlock.delta }) := by
    unfold PendingBlock.executeNextTransaction
    dsimp only
    rw [htx, hbody, hvm]
  have hlk : (b.pendingBlock.transactionResults
        ++ [(txId, ({ transaction := { txBody := txc, txIndex := b.pendingBlock.index
                                       outcome := outcome }
                      index := b.pendingBlock.index } : IndexedTransactionResult))]).lookup txId
      = some { transaction := { txBody := txc, txIndex := b.pendingBlock.index
                                outcome := outcome }
               index := b.pendingBlock.index } := by
    rw [lookup_append_left_none _ _ _ hfresh]
    simp [List.lookup]
  refine ⟨?_, rfl, rfl, hlk, ?_⟩
  · unfold Blockchain.executeNextTransaction
    simp only [hnc, Bool.false_eq_true, if_false]
    rw [hpb]
  · intro hcomp2 hsfresh
    have hstart : ({ b.pendingBlock with
        index := b.pendingBlock.index + 1
        transactionResults := b.pendingBlock.transactionResults
          ++ [(txId, { transaction := { txBody := txc, txIndex := b.pendingBlock.index
                                        outcome := outcome }
                       index := b.pendingBlock.index })]
        delta := outcome.writes ++ b.pendingBlock.delta } : PendingBlock).executionStarted
        = true := by
      simp [PendingBlock.executionStarted]
    cases hC : Blockchain.commitBlock
        { b with pendingBlock := { b.pendingBlock with
            index := b.pendingBlock.index + 1
            transactionResults := b.pendingBlock.transactionResults
              ++ [(txId, { transaction := { txBody := txc, txIndex := b.pendingBlock.index
                                            outcome := outcome }
                           index := b.pendingBlock.index })]
            delta := outcome.writes ++ b.pendingBlock.delta } } with
    | error e =>
      unfold Blockchain.commitBlock at hC
      simp [hstart, hcomp2] at hC
    | ok p =>
      rcases p with ⟨blk, b2⟩
      have hC2 := hC
      unfold Blockchain.commitBlock at hC2
      simp only [hstart, hcomp2, Bool.not_true, Bool.and_false, Bool.false_and,
        Bool.false_eq_true, if_false, Except.ok.injEq, Prod.mk.injEq] at hC2
      obtain ⟨hblk, hb2⟩ := hC2
      refine ⟨blk, b2, rfl, ?_⟩
      rw [← hb2]
      show (Store.commitBlock _ _ _ _ _ _ _).results.lookup txId = _
      unfold Store.commitBlock
      dsimp only
      rw [lookup_append_left_none _ _ _ hsfresh]
      rw [lookup_convertToSealed]
      rw [hlk]
      rfl

/-- C4 witness: on the reverting fixture, executing the next transaction
advances the cursor and records the reverted result. -/
theorem claim_C4_witness :
    bcOneTxRevert.executeNextTransaction bcOneTxRevert.pendingBlock.block
      = (.ok (vmTransactionResultToEmulator
          { txBody := tx1, txIndex := bcOneTxRevert.pendingBlock.index
            outcome := revertOutcome }),
         { bcOneTxRevert with pendingBlock := { bcOneTxRevert.pendingBlock with
             index := bcOneTxRevert.pendingBlock.index + 1
             transactionResults := bcOneTxRevert.pendingBlock.transactionResults
               ++ [(1, { transaction := { txBody := tx1
                                          txIndex := bcOneTxRevert.pendingBlock.index
                                          outcome := revertOutcome }
                         index := bcOneTxRevert.pendingBlock.index })]
             delta := revertOutcome.writes ++ bcOneTxRevert.pendingBlock.delta } }) :=
  (claim_C4 bcOneTxRevert bcOneTxRevert.pendingBlock.block 1 tx1 revertOutcome _
    (by decide) rfl rfl rfl rfl rfl).1

theorem getBlockByHeight_ok_inv {b : Blockchain} {h : Nat} {bl : Block}
    (hh : b.getBlockByHeight h = .ok bl) : b.storage.blockByHeight h = .ok bl := by
  unfold Blockchain.getBlockByHeight getBlockByHeightFrom at hh
  split at hh <;> simp_all

theorem getEventsByHeight_ok_inv {b : Blockchain} {h : Nat} {t : String} {evs : List Event}
    (hh : b.getEventsByHeight h t = .ok evs) : b.storage.eventsByHeight h t = .ok evs := by
  unfold Blockchain.getEventsByHeight at hh
  split at hh <;> simp_all

theorem blockByHeight_height {s : Store} {h : Nat} {bl : Block}
    (hh : s.blockByHeight h = .ok bl) : bl.height = h := by
  unfold Store.blockByHeight at hh
  split at hh
  next bl2 hfind =>
    simp only [Except.ok.injEq] at hh
    subst hh
    have hp := List.find?_some hfind
    simpa using hp
  next => simp at hh

theorem rangeAsc_length (s e : Nat) : (rangeAsc s e).length = e + 1 - s := by
  simp [rangeAsc]

theorem rangeAsc_getD (s e i : Nat) (hi : i < (rangeAsc s e).length) :
    (rangeAsc s e).getD i 0 = s + i := by
  unfold rangeAsc at hi ⊢
  simp only [List.length_map, List.length_range] at hi
  rw [List.getD_eq_getElem?_getD, List.getElem?_map, List.getElem?_range hi]
  rfl

theorem eventsForHeights_ok (b : Blockchain) (eventType : String) :
    ∀ (heights : List Nat) (results : List BlockEvents),
      b.eventsForHeights eventType heights = .ok results →
      results.length = heights.length
      ∧ ∀ i (hi : i < results.length), ∃ block evs,
          b.storage.blockByHeight (heights.getD i 0) = .ok block
          ∧ b.storage.eventsByHeight (heights.getD i 0) eventType = .ok evs
          ∧ results.get ⟨i, hi⟩
              = { blockID := block.blkId, blockHeight := block.height
                  blockTimestamp := block.timestamp, events := evs } := by
  intro heights
  induction heights with
  | nil =>
    intro results h
    unfold Blockchain.eventsForHeights at h
    simp only [Except.ok.injEq] at h
    subst h
    refine ⟨rfl, ?_⟩
    intro i hi
    simp at hi
  | cons hd tl ih =>
    intro results h
    unfold Blockchain.eventsForHeights at h
    split at h
    · simp at h
    next block hblock =>
      split at h
      · simp at h
      next evs hevs =>
        split at h
        · simp at h
        next rs hrs =>
          simp only [Except.ok.injEq] at h
          subst h
          obtain ⟨hlen, hidx⟩ := ih rs hrs
          refine ⟨by simp [hlen], ?_⟩
          intro i hi
          cases i with
          | zero =>
            refine ⟨block, evs, ?_, ?_, rfl⟩
            · simpa using getBlockByHeight_ok_inv hblock
            · simpa using getEventsByHeight_ok_inv hevs
          | succ j =>
            have hj : j < rs.length := by
              simp at hi
              omega
            obtain ⟨block2, evs2, h1, h2, h3⟩ := hidx j hj
            exact ⟨block2, evs2, by simpa using h1, by simpa using h2, by simpa using h3⟩

/-- C5: GetEventsForHeightRange clamps an endHeight of 0 or beyond the
latest committed height to the latest height; if after clamping the start
exceeds the end it returns an invalid-argument error with no partial
results; otherwise the returned entries cover the heights in ascending
order, each carrying the block ID, height, timestamp and the filtered
events of that height. -/
theorem claim_C5 (b : Blockchain) (eventType : String) (startHeight endHeight : Nat)
    (lb : Block) (endH : Nat)
    (hlatest : b.storage.latestBlock = .ok lb)
    (hend : endH = if endHeight = 0 ∨ lb.height < endHeight then lb.height else endHeight) :
    ((endHeight = 0 ∨ lb.height < endHeight) →
      b.getEventsForHeightRange eventType startHeight endHeight
        = b.getEventsForHeightRange eventType startHeight lb.height)
    ∧ (validateEventType eventType = .ok () → endH < startHeight →
        b.getEventsForHeightRange eventType startHeight endHeight
          = .error (.invalidArgument "startHeight > endHeight"))
    ∧ (∀ results, b.getEventsForHeightRange eventType startHeight endHeight = .ok results →
        results.length = endH + 1 - startHeight
        ∧ ∀ i (hi : i < results.length), ∃ block evs,
            b.storage.blockByHeight (startHeight + i) = .ok block
            ∧ block.height = startHeight + i
            ∧ b.storage.eventsByHeight (startHeight + i) eventType = .ok evs
            ∧ results.get ⟨i, hi⟩
                = { blockID := block.blkId, blockHeight := block.height
                    blockTimestamp := block.timestamp, events := evs }) := by
  have hl : b.getLatestBlock = .ok lb := by
    unfold Blockchain.getLatestBlock
    rw [hlatest]
  refine ⟨?_, ?_, ?_⟩
  · intro hclamp
    unfold Blockchain.getEventsForHeightRange
    cases hv : validateEventType eventType with
    | error e => rfl
    | ok u =>
      rw [hl]
      dsimp only
      have hcond : (if endHeight = 0 ∨ lb.height < endHeight
          then lb.height else endHeight) = lb.height := if_pos hclamp
      have hcond2 : (if lb.height = 0 ∨ lb.height < lb.height
          then lb.height else lb.height) = lb.height := by
        split <;> rfl
      rw [hcond, hcond2]
  · intro hval hlt
    unfold Blockchain.getEventsForHeightRange
    rw [hval, hl]
    dsimp only
    rw [← hend]
    rw [if_pos hlt]
  · intro results hok
    unfold Blockchain.getEventsForHeightRange at hok
    split at hok
    · simp at hok
    · rw [hl] at hok
      dsimp only at hok
      rw [← hend] at hok
      split at hok
      · simp at hok
      · obtain ⟨hlen, hidx⟩ := eventsForHeights_ok b eventType (rangeAsc startHeight endH)
          results hok
        refine ⟨by rw [hlen, rangeAsc_length], ?_⟩
        intro i hi
        have hi2 : i < (rangeAsc startHeight endH).length := by
          rw [← hlen]
          exact hi
        obtain ⟨block, evs, h1, h2, h3⟩ := hidx i hi
        rw [rangeAsc_getD startHeight endH i hi2] at h1 h2
        exact ⟨block, evs, h1, blockByHeight_height h1, h2, h3⟩

/-- C5 witness: with startHeight 5 and endHeight 0 (clamped to the latest
height 0), the range query fails with the invalid-argument error. -/
theorem claim_C5_witness :
    baseBlockchain.getEventsForHeightRange "flow.AccountCreated" 5 0
      = .error (.invalidArgument "startHeight > endHeight") :=
  (claim_C5 baseBlockchain "flow.AccountCreated" 5 0 genesisBlock 0 rfl rfl).2.1
    (by
      unfold validateEventType
      rw [if_neg (by decide :
        ¬ ("flow.AccountCreated".toList.all (fun c => c.isWhitespace) = true))])
    (by decide)

end FlowEmu
